import Mathlib

/-!
Verification of the ASUS ROG Terminal USB HID protocol engine.

The repository contains two protocol engines:
* the later engine (`src/src/lib.rs` + `src/src/aura.rs`), which supports
  firmware-version / config-table queries, preset effects and direct LED
  updates with per-channel addressing;
* the earlier engine (`src/lib.rs`), which supports the queries and direct
  LED updates without a channel field.

Bytes are modelled as `Nat` (the Rust code receives `u8`; none of the decode
logic depends on the `< 256` bound).  A fixed-size Rust buffer `[u8; N]`
is modelled as a `List Nat` together with a length hypothesis.  Fallible
operations (out-of-bounds slicing, `copy_from_slice` length mismatch,
`ArrayVec::from_array_len` capacity overflow — all of which panic in Rust)
are modelled with `Option`: `none` means a panic was reached.
-/

namespace RogTerminal

/-- From `src/src/aura.rs`: `AURA_HID_REPORT_ID : u8 = 0xec`. -/
def AURA_HID_REPORT_ID : Nat := 0xec

/-- From `src/src/aura.rs`: `AURA_MAX_DIRECT_LED_COUNT : u8 = 20`. -/
def AURA_MAX_DIRECT_LED_COUNT : Nat := 20

/-- From `src/src/aura.rs`: `AURA_FIRMWARE_VERSION_LEN : u8 = 15`. -/
def AURA_FIRMWARE_VERSION_LEN : Nat := 15

/-- From `src/src/aura.rs`: `AURA_OUTPUT_REPORT_SIZE : usize = 65`. -/
def AURA_OUTPUT_REPORT_SIZE : Nat := 65

/-- From `src/src/aura.rs`: `AURA_INPUT_REPORT_SIZE : usize = 64`. -/
def AURA_INPUT_REPORT_SIZE : Nat := 64

/-- From `src/src/aura.rs`: `struct RGB8 { r: u8, g: u8, b: u8 }` (packed, 3 bytes). -/
structure RGB8 where
  r : Nat
  g : Nat
  b : Nat
deriving DecidableEq, Repr

/-- From `src/src/aura.rs`: `rgb_from_raw_slice` reinterprets a byte slice as
`slice.len() / 3` packed RGB8 values taken from consecutive 3-byte groups;
a ragged tail of fewer than 3 bytes contributes no element. -/
def rgb_from_raw_slice : List Nat → List RGB8
  | r :: g :: b :: rest => ⟨r, g, b⟩ :: rgb_from_raw_slice rest
  | _ => []

/-- From `src/src/aura.rs`: `enum AuraEffect` (the closed enumeration of effect kinds). -/
inductive AuraEffect where
  | Off
  | Static
  | Breathing
  | Flashing
  | SpectrumCycle
  | Rainbow
  | SpectrumCycleBreathing
  | ChaseFade
  | SpectrumCycleChaseFade
  | Chase
  | SpectrumCycleChase
  | SpectrumCycleWave
  | ChaseRainbowPulse
  | RandomFlicker
  | Music
  | Direct
deriving DecidableEq, Repr

/-- Embedding of `AuraEffect::try_from` (derived by `IntEnum` from the discriminant values
`Off = 0, …, Music = 14, Direct = 0xff`). -/
def AuraEffect.tryFrom : Nat → Option AuraEffect
  | 0 => some .Off
  | 1 => some .Static
  | 2 => some .Breathing
  | 3 => some .Flashing
  | 4 => some .SpectrumCycle
  | 5 => some .Rainbow
  | 6 => some .SpectrumCycleBreathing
  | 7 => some .ChaseFade
  | 8 => some .SpectrumCycleChaseFade
  | 9 => some .Chase
  | 10 => some .SpectrumCycleChase
  | 11 => some .SpectrumCycleWave
  | 12 => some .ChaseRainbowPulse
  | 13 => some .RandomFlicker
  | 14 => some .Music
  | 0xff => some .Direct
  | _ => none

/-- From `src/src/aura.rs`: `enum AuraOutputReportType`. -/
inductive AuraOutputReportType where
  | FirmwareVersionRequest
  | ConfigTableRequest
  | SetEffect
  | SetDirectLeds
deriving DecidableEq, Repr

/-- Embedding of `AuraOutputReportType::try_from` (derived by `IntEnum` from
`FirmwareVersionRequest = 0x82, ConfigTableRequest = 0xB0,
SetEffect = 0x3B, SetDirectLeds = 0x40`). -/
def AuraOutputReportType.tryFrom : Nat → Option AuraOutputReportType
  | 0x82 => some .FirmwareVersionRequest
  | 0xB0 => some .ConfigTableRequest
  | 0x3B => some .SetEffect
  | 0x40 => some .SetDirectLeds
  | _ => none

/-- From `src/src/lib.rs`: `enum RogTerminalMessage` of the later engine. -/
inductive RogTerminalMessage where
  | UpdateLeds (channel : Nat) (offset : Nat) (apply : Bool) (led_data : List RGB8)
  | SetEffect (channel : Nat) (effect : AuraEffect)
deriving DecidableEq, Repr

/-- From `src/src/lib.rs`: `enum RogTerminalReadyData` (pending response kind). -/
inductive RogTerminalReadyData where
  | FirmwareVersion
  | ConfigTable
deriving DecidableEq, Repr

/-- Capacity of `ConstGenericRingBuffer<RogTerminalReadyData, 4>`. -/
def RINGBUFFER_CAPACITY : Nat := 4

/-- Modelled from the `ringbuffer` crate (an external dependency whose code is
not in this repository): `ConstGenericRingBuffer::push` appends the new value
and, when the buffer is already at capacity, overwrites (evicts) the oldest
value.  The queue is a `List` whose head is the oldest element. -/
def ringPush (q : List RogTerminalReadyData) (x : RogTerminalReadyData) :
    List RogTerminalReadyData :=
  if q.length < RINGBUFFER_CAPACITY then q ++ [x] else q.tail ++ [x]

/-- Embedding of Rust range slicing `l[a..b]`: panics (here `none`) unless `a ≤ b ≤ l.len()`. -/
def sliceRange (l : List Nat) (a b : Nat) : Option (List Nat) :=
  if a ≤ b ∧ b ≤ l.length then some ((l.drop a).take (b - a)) else none

/-- Outcome of decoding one output report in
`AsusRogTerminalHidClass::handle_report` (later engine): either the report is
rejected (invalid id / type / effect code, diagnostics only), or it enqueues a
`RogTerminalReadyData` response request, or it latches a `RogTerminalMessage`
command. -/
inductive DecodeResult where
  | rejected
  | response (d : RogTerminalReadyData)
  | command (m : RogTerminalMessage)
deriving DecidableEq, Repr

/-- The pure decode part of `AsusRogTerminalHidClass::handle_report`
(`src/src/lib.rs`, later engine), faithful to the source control flow:

1. `report[0] != AURA_HID_REPORT_ID` → rejected;
2. unknown `report[1]` → rejected;
3. firmware / config-table requests → a response request;
4. `SetEffect`: `report[2]` = channel, `report[4]` = effect code, unknown
   effect code → rejected;
5. `SetDirectLeds`: `report[2] & 0x80` = apply, `report[2] & 0x7f` = channel,
   `report[3]` = offset, `report[4]` = LED count clamped to 20; the slice
   `report[5 .. 5 + num_leds*3]` is reinterpreted as colors and copied into
   `led_data[0..num_leds]`; slicing out of bounds or a `copy_from_slice`
   length mismatch panics (`none`). -/
def decode_report (report : List Nat) : Option DecodeResult :=
  match report[0]?, report[1]? with
  | some report_id, some report_type_byte =>
    if report_id ≠ AURA_HID_REPORT_ID then some .rejected
    else
      match AuraOutputReportType.tryFrom report_type_byte with
      | none => some .rejected
      | some .FirmwareVersionRequest => some (.response .FirmwareVersion)
      | some .ConfigTableRequest => some (.response .ConfigTable)
      | some .SetEffect =>
        match report[2]?, report[4]? with
        | some channel, some effect_code =>
          match AuraEffect.tryFrom effect_code with
          | none => some .rejected
          | some effect => some (.command (.SetEffect channel effect))
        | _, _ => none
      | some .SetDirectLeds =>
        match report[2]?, report[3]?, report[4]? with
        | some b2, some offset, some n0 =>
          let apply : Bool := b2 &&& 0x80 != 0
          let channel := b2 &&& 0x7f
          let num_leds :=
            if n0 > AURA_MAX_DIRECT_LED_COUNT then AURA_MAX_DIRECT_LED_COUNT else n0
          match sliceRange report 5 (5 + num_leds * 3) with
          | none => none
          | some raw =>
            let src := rgb_from_raw_slice raw
            if src.length = num_leds ∧ num_leds ≤ AURA_MAX_DIRECT_LED_COUNT then
              some (.command (.UpdateLeds channel offset apply src))
            else none
        | _, _, _ => none
  | _, _ => none

/-- The engine state owned by `AsusRogTerminalHidClass` (later engine):
the bounded response queue `data_rdy` (oldest first) and the one-slot
command mailbox `next_message`. -/
structure EngineState where
  data_rdy : List RogTerminalReadyData
  next_message : Option RogTerminalMessage
deriving DecidableEq, Repr

/-- The state as initialized by `AsusRogTerminalHidClass::new`. -/
def initial_state : EngineState := ⟨[], none⟩

/-- Embedding of `AsusRogTerminalHidClass::handle_report` (later engine) as a state
transformer: a rejected report leaves the state unchanged, a response request
is pushed onto `data_rdy`, a command overwrites `next_message`.  `none`
models a panic inside the handler. -/
def handle_report (st : EngineState) (report : List Nat) : Option EngineState :=
  match decode_report report with
  | none => none
  | some .rejected => some st
  | some (.response d) => some { st with data_rdy := ringPush st.data_rdy d }
  | some (.command m) => some { st with next_message := some m }

/-- Embedding of `AsusRogTerminalHidClass::poll_next_message`: `self.next_message.take()` —
returns the held command (or `none`) and clears the mailbox. -/
def poll_next_message (st : EngineState) :
    Option RogTerminalMessage × EngineState :=
  (st.next_message, { st with next_message := none })

/-- The command a report decodes to, if any (its value is independent of the
engine state, so it is read off `decode_report`). -/
def decode_command (report : List Nat) : Option RogTerminalMessage :=
  match decode_report report with
  | some (.command m) => some m
  | _ => none

/-- From `src/src/lib.rs`: `ROG_AURA_DEFAULT_FIRMWARE_VERSION = b"AUTA0-S072-0101"`
(15 ASCII bytes). -/
def ROG_AURA_DEFAULT_FIRMWARE_VERSION : List Nat :=
  [0x41, 0x55, 0x54, 0x41, 0x30, 0x2D, 0x53, 0x30, 0x37, 0x32, 0x2D,
   0x30, 0x31, 0x30, 0x31]

/-- Value of `AuraInputReportType::FirmwareVersionRequestOk as u8 = 0x02`. -/
def FIRMWARE_VERSION_REQUEST_OK : Nat := 0x02

/-- Value of `AuraInputReportType::ConfigTableRequestOk as u8 = 0x30`. -/
def CONFIG_TABLE_REQUEST_OK : Nat := 0x30

/-- From `src/src/lib.rs`: the `CONFIG_TABLE_RESPONSE` constant — 34 explicit bytes
(report id, response code, header and 4 channel descriptor blocks of 6 bytes)
followed by zero padding up to 64 bytes. -/
def CONFIG_TABLE_RESPONSE : List Nat :=
  [AURA_HID_REPORT_ID, CONFIG_TABLE_REQUEST_OK,
   0x00, 0x00, 0x1f, 0xff,
   0x04,
   0x1f, 0x01, 0x01,
   0x00, 0x5a, 0x01, 0x64, 0x01, 0x01,
   0x00, 0x5a, 0x01, 0x64, 0x01, 0x01,
   0x00, 0x5a, 0x01, 0x64, 0x01, 0x01,
   0x00, 0x5a, 0x01, 0x64, 0x01, 0x03] ++ List.replicate 30 0

/-- The firmware-version input report built inside `push_ready_data`
(later engine): a 64-byte zero buffer with byte 0 = report id, byte 1 =
`FirmwareVersionRequestOk`, bytes 2..17 overwritten by the 15-byte firmware
version string (the `firmware_version` field has type `&[u8; 15]`, so its
length is fixed).  2 + 15 + 47 = 64. -/
def mk_firmware_report (fw : List Nat) : List Nat :=
  AURA_HID_REPORT_ID :: FIRMWARE_VERSION_REQUEST_OK :: (fw ++ List.replicate 47 0)

/-- The input report submitted for one pending `RogTerminalReadyData`
(the body of the `match elem` in `push_ready_data`, later engine). -/
def encode_response (fw : List Nat) : RogTerminalReadyData → List Nat
  | .FirmwareVersion => mk_firmware_report fw
  | .ConfigTable => CONFIG_TABLE_RESPONSE

/-- Embedding of `AsusRogTerminalHidClass::push_ready_data` (later engine): repeatedly peek
the oldest pending response, encode it and submit it via
`HIDClass::push_raw_input`; on success dequeue and continue, on transport
failure stop (the peeked entry stays queued).  The transport is modelled by
`outcomes : Nat → Bool`, giving the success of the `k`-th submission attempt
of this drain; the result is the final queue and the list of reports
submitted, in submission order. -/
def drain_from (fw : List Nat) :
    List RogTerminalReadyData → (Nat → Bool) → Nat →
    List RogTerminalReadyData × List (List Nat)
  | [], _, _ => ([], [])
  | d :: rest, outcomes, k =>
    if outcomes k then
      let r := drain_from fw rest outcomes (k + 1)
      (r.1, encode_response fw d :: r.2)
    else (d :: rest, [])

/-- Function `push_ready_data` proper: a drain starting at attempt 0. -/
def push_ready_data (fw : List Nat) (q : List RogTerminalReadyData)
    (outcomes : Nat → Bool) : List RogTerminalReadyData × List (List Nat) :=
  drain_from fw q outcomes 0

section EarlierEngine

/-- From `src/lib.rs` (earlier engine): `enum RogTerminalMessage` — only
`UpdateLeds`, without a channel field. -/
inductive RogTerminalMessageV1 where
  | UpdateLeds (apply : Bool) (offset : Nat) (led_data : List RGB8)
deriving DecidableEq, Repr

/-- Decode of `AsusRogTerminalHidClass::handle_report` in the earlier engine
(`src/lib.rs`): only firmware-version, config-table and set-LEDs requests.
For `AURA_REQUEST_SET_LEDS` the source slices `buf[5..5 + num_leds as usize]`
(not `num_leds * 3`), reinterprets it as colors — yielding `num_leds / 3`
elements — and `copy_from_slice`s it into `led_data[0..num_leds]`, which
panics (`none`) whenever the two lengths differ. -/
def decode_report_v1 (buf : List Nat) : Option (Option RogTerminalMessageV1 ⊕ RogTerminalReadyData) :=
  match buf[0]?, buf[1]? with
  | some b0, some b1 =>
    if b0 ≠ AURA_HID_REPORT_ID then some (.inl none)
    else if b1 = 0x82 then some (.inr .FirmwareVersion)
    else if b1 = 0xB0 then some (.inr .ConfigTable)
    else if b1 = 0x40 then
      match buf[2]?, buf[3]?, buf[4]? with
      | some b2, some offset, some n0 =>
        let apply : Bool := b2 &&& 0x80 != 0
        let num_leds :=
          if n0 > AURA_MAX_DIRECT_LED_COUNT then AURA_MAX_DIRECT_LED_COUNT else n0
        match sliceRange buf 5 (5 + num_leds) with
        | none => none
        | some raw =>
          let src := rgb_from_raw_slice raw
          if src.length = num_leds ∧ num_leds ≤ AURA_MAX_DIRECT_LED_COUNT then
            some (.inl (some (.UpdateLeds apply offset src)))
          else none
      | _, _, _ => none
    else some (.inl none)
  | _, _ => none

end EarlierEngine

/-- The end-to-end example report of the specification (§8): a
`SetDirectLeds` report for channel 1, offset 0, apply = true, with the two
colors (255,0,0) and (0,255,0), zero-padded to the 65-byte output report
size. -/
def spec_example_report : List Nat :=
  [0xEC, 0x40, 0x81, 0x00, 0x02, 0xFF, 0x00, 0x00, 0x00, 0xFF, 0x00] ++
    List.replicate 54 0

/-- States of the later engine reachable from the freshly constructed engine
by its three mutating operations: handling a pulled output report, taking the
pending command, and draining the response queue against an arbitrary
transport. -/
inductive Reachable : EngineState → Prop where
  | init : Reachable initial_state
  | handle (st st' : EngineState) (report : List Nat) :
      Reachable st → handle_report st report = some st' → Reachable st'
  | take (st : EngineState) :
      Reachable st → Reachable (poll_next_message st).2
  | drain (st : EngineState) (fwv : List Nat) (outcomes : Nat → Bool) :
      Reachable st →
      Reachable { st with data_rdy := (push_ready_data fwv st.data_rdy outcomes).1 }

theorem rgb_from_raw_slice_length :
    ∀ l : List Nat, (rgb_from_raw_slice l).length = l.length / 3
  | [] => by simp [rgb_from_raw_slice]
  | [_] => by simp [rgb_from_raw_slice]
  | [_, _] => by simp [rgb_from_raw_slice]
  | r :: g :: b :: rest => by
      simp only [rgb_from_raw_slice, List.length_cons,
        rgb_from_raw_slice_length rest]
      omega

theorem rgb_from_raw_slice_getElem? :
    ∀ (l : List Nat) (i : Nat), 3 * i + 2 < l.length →
      (rgb_from_raw_slice l)[i]? =
        some ⟨l.getD (3 * i) 0, l.getD (3 * i + 1) 0, l.getD (3 * i + 2) 0⟩
  | r :: g :: b :: rest, 0, _ => by
      simp [rgb_from_raw_slice]
  | r :: g :: b :: rest, i + 1, h => by
      have h' : 3 * i + 2 < rest.length := by
        simp only [List.length_cons] at h; omega
      have ih := rgb_from_raw_slice_getElem? rest i h'
      have e1 : 3 * (i + 1) = 3 * i + 1 + 1 + 1 := by ring
      have e2 : 3 * (i + 1) + 1 = 3 * i + 1 + 1 + 1 + 1 := by ring
      have e3 : 3 * (i + 1) + 2 = 3 * i + 1 + 1 + 1 + 1 + 1 := by ring
      simp only [rgb_from_raw_slice, List.getElem?_cons_succ, e1, e2, e3,
        List.getD_cons_succ, ih]
  | [], _, h => by simp at h
  | [_], i, h => by simp at h
  | [_, _], i, h => by simp at h

theorem apply_flag_eq_testBit (b2 : Nat) : (b2 &&& 0x80 != 0) = b2.testBit 7 := by
  have h : b2 &&& 0x80 = (b2.testBit 7).toNat * 2 ^ 7 := by
    simpa using Nat.and_two_pow b2 7
  rw [h]
  cases b2.testBit 7 <;> simp

theorem channel_mask_eq_mod (b2 : Nat) : b2 &&& 0x7f = b2 % 128 := by
  have h := Nat.and_pow_two_sub_one_eq_mod b2 7
  norm_num at h
  exact h

theorem take_drop_getD (l : List Nat) (a m j : Nat) (hj : j < m) :
    ((l.drop a).take m).getD j 0 = l.getD (a + j) 0 := by
  simp [List.getD_eq_getElem?_getD, List.getElem?_take_of_lt hj,
    List.getElem?_drop]

theorem decode_report_setDirectLeds (report : List Nat) (b2 b3 n : Nat)
    (hlen : report.length = 65)
    (h0 : report[0]? = some AURA_HID_REPORT_ID) (h1 : report[1]? = some 0x40)
    (h2 : report[2]? = some b2) (h3 : report[3]? = some b3)
    (h4 : report[4]? = some n) :
    decode_report report =
      some (.command (.UpdateLeds (b2 &&& 0x7f) b3 (b2 &&& 0x80 != 0)
        (rgb_from_raw_slice ((report.drop 5).take
          ((if n > AURA_MAX_DIRECT_LED_COUNT then AURA_MAX_DIRECT_LED_COUNT
            else n) * 3))))) := by
  have hm :
      (if n > AURA_MAX_DIRECT_LED_COUNT then AURA_MAX_DIRECT_LED_COUNT else n) ≤ 20 := by
    unfold AURA_MAX_DIRECT_LED_COUNT
    split <;> omega
  set m := if n > AURA_MAX_DIRECT_LED_COUNT then AURA_MAX_DIRECT_LED_COUNT else n with hmdef
  have hslice : sliceRange report 5 (5 + m * 3) =
      some ((report.drop 5).take (m * 3)) := by
    have h1' : (5 : Nat) ≤ 5 + m * 3 := by omega
    have h2' : 5 + m * 3 ≤ report.length := by omega
    simp [sliceRange, h1', h2']
  have hsrclen : (rgb_from_raw_slice ((report.drop 5).take (m * 3))).length = m := by
    rw [rgb_from_raw_slice_length]
    simp only [List.length_take, List.length_drop, hlen]
    omega
  unfold decode_report
  rw [h0, h1, h2, h3, h4]
  simp only [AuraOutputReportType.tryFrom, AURA_HID_REPORT_ID]
  rw [← hmdef, hslice]
  simp [hsrclen, hm, AURA_MAX_DIRECT_LED_COUNT]

/-- C1: for every 65-byte output report with byte 0 = 0xEC, byte 1 = 0x40
(`SetDirectLeds`) and byte 4 = N ≤ 20, `handle_report` stores an `UpdateLeds`
command whose apply flag is bit 7 of byte 2, whose channel is bits 0–6 of
byte 2, whose offset is byte 3, and whose LED buffer has length exactly N
with element i equal to the RGB triple at bytes 5+3i, 5+3i+1, 5+3i+2 of the
report, in order.  The response queue is untouched. -/
theorem setDirectLeds_decode_spec (st : EngineState) (report : List Nat)
    (b2 b3 n : Nat) (hlen : report.length = 65)
    (h0 : report[0]? = some 0xEC) (h1 : report[1]? = some 0x40)
    (h2 : report[2]? = some b2) (h3 : report[3]? = some b3)
    (h4 : report[4]? = some n) (hn : n ≤ 20) :
    ∃ leds : List RGB8,
      handle_report st report =
        some { st with next_message := some (.UpdateLeds (b2 % 128) b3 (b2.testBit 7) leds) } ∧
      leds.length = n ∧
      ∀ i < n, leds[i]? = some ⟨report.getD (5 + 3 * i) 0,
        report.getD (5 + 3 * i + 1) 0, report.getD (5 + 3 * i + 2) 0⟩ := by
  have hd := decode_report_setDirectLeds report b2 b3 n hlen h0 h1 h2 h3 h4
  have hif : (if n > AURA_MAX_DIRECT_LED_COUNT then AURA_MAX_DIRECT_LED_COUNT
      else n) = n := by
    unfold AURA_MAX_DIRECT_LED_COUNT
    split <;> omega
  rw [hif] at hd
  refine ⟨rgb_from_raw_slice ((report.drop 5).take (n * 3)), ?_, ?_, ?_⟩
  · unfold handle_report
    rw [hd]
    dsimp only
    rw [channel_mask_eq_mod, apply_flag_eq_testBit]
  · rw [rgb_from_raw_slice_length]
    simp only [List.length_take, List.length_drop, hlen]
    omega
  · intro i hi
    have hbound : 3 * i + 2 < ((report.drop 5).take (n * 3)).length := by
      simp only [List.length_take, List.length_drop, hlen]
      omega
    rw [rgb_from_raw_slice_getElem? _ i hbound]
    have g1 := take_drop_getD report 5 (n * 3) (3 * i) (by omega)
    have g2 := take_drop_getD report 5 (n * 3) (3 * i + 1) (by omega)
    have g3 := take_drop_getD report 5 (n * 3) (3 * i + 2) (by omega)
    have e2 : 5 + (3 * i + 1) = 5 + 3 * i + 1 := by ring
    have e3 : 5 + (3 * i + 2) = 5 + 3 * i + 2 := by ring
    rw [g1, g2, g3, e2, e3]

/-- Witness for `setDirectLeds_decode_spec`: the spec's end-to-end example
report (channel 1, offset 0, apply, two LEDs) satisfies all hypotheses and
the decoded message matches. -/
theorem setDirectLeds_decode_spec_witness :
    ∃ leds : List RGB8,
      handle_report initial_state spec_example_report =
        some { initial_state with next_message := some (.UpdateLeds (0x81 % 128) 0 ((0x81 : Nat).testBit 7) leds) } ∧
      leds.length = 2 ∧
      ∀ i < 2, leds[i]? = some ⟨spec_example_report.getD (5 + 3 * i) 0,
        spec_example_report.getD (5 + 3 * i + 1) 0,
        spec_example_report.getD (5 + 3 * i + 2) 0⟩ :=
  setDirectLeds_decode_spec initial_state spec_example_report 0x81 0 2
    (by decide) (by decide) (by decide) (by decide) (by decide) (by decide)
    (by decide)

/-- C2: a `SetDirectLeds` report whose requested LED count exceeds 20 is not
rejected: the count is clamped, the decoded LED buffer has length exactly 20
and holds the first 20 RGB triples starting at byte 5. -/
theorem setDirectLeds_clamped (st : EngineState) (report : List Nat)
    (b2 b3 n : Nat) (hlen : report.length = 65)
    (h0 : report[0]? = some 0xEC) (h1 : report[1]? = some 0x40)
    (h2 : report[2]? = some b2) (h3 : report[3]? = some b3)
    (h4 : report[4]? = some n) (hn : n > 20) :
    ∃ leds : List RGB8,
      handle_report st report =
        some { st with next_message := some (.UpdateLeds (b2 % 128) b3 (b2.testBit 7) leds) } ∧
      leds.length = 20 ∧
      ∀ i < 20, leds[i]? = some ⟨report.getD (5 + 3 * i) 0,
        report.getD (5 + 3 * i + 1) 0, report.getD (5 + 3 * i + 2) 0⟩ := by
  have hd := decode_report_setDirectLeds report b2 b3 n hlen h0 h1 h2 h3 h4
  have hif : (if n > AURA_MAX_DIRECT_LED_COUNT then AURA_MAX_DIRECT_LED_COUNT
      else n) = 20 := by
    unfold AURA_MAX_DIRECT_LED_COUNT
    split <;> omega
  rw [hif] at hd
  refine ⟨rgb_from_raw_slice ((report.drop 5).take (20 * 3)), ?_, ?_, ?_⟩
  · unfold handle_report
    rw [hd]
    dsimp only
    rw [channel_mask_eq_mod, apply_flag_eq_testBit]
  · rw [rgb_from_raw_slice_length]
    simp only [List.length_take, List.length_drop, hlen]
    decide
  · intro i hi
    have hbound : 3 * i + 2 < ((report.drop 5).take (20 * 3)).length := by
      simp only [List.length_take, List.length_drop, hlen]
      omega
    rw [rgb_from_raw_slice_getElem? _ i hbound]
    have g1 := take_drop_getD report 5 (20 * 3) (3 * i) (by omega)
    have g2 := take_drop_getD report 5 (20 * 3) (3 * i + 1) (by omega)
    have g3 := take_drop_getD report 5 (20 * 3) (3 * i + 2) (by omega)
    have e2 : 5 + (3 * i + 1) = 5 + 3 * i + 1 := by ring
    have e3 : 5 + (3 * i + 2) = 5 + 3 * i + 2 := by ring
    rw [g1, g2, g3, e2, e3]

/-- Witness for `setDirectLeds_clamped`: a report requesting 255 LEDs is
clamped to 20. -/
theorem setDirectLeds_clamped_witness :
    ∃ leds : List RGB8,
      handle_report initial_state
        ([0xEC, 0x40, 0x01, 0x00, 0xFF] ++ List.replicate 60 7) =
        some { initial_state with next_message := some (.UpdateLeds (0x01 % 128) 0 ((0x01 : Nat).testBit 7) leds) } ∧
      leds.length = 20 ∧
      ∀ i < 20, leds[i]? =
        some ⟨([0xEC, 0x40, 0x01, 0x00, 0xFF] ++
            List.replicate 60 7).getD (5 + 3 * i) 0,
          ([0xEC, 0x40, 0x01, 0x00, 0xFF] ++
            List.replicate 60 7).getD (5 + 3 * i + 1) 0,
          ([0xEC, 0x40, 0x01, 0x00, 0xFF] ++
            List.replicate 60 7).getD (5 + 3 * i + 2) 0⟩ :=
  setDirectLeds_clamped initial_state
    ([0xEC, 0x40, 0x01, 0x00, 0xFF] ++ List.replicate 60 7) 0x01 0 0xFF
    (by decide) (by decide) (by decide) (by decide) (by decide) (by decide)
    (by decide)

theorem getElem?_eq_getD (l : List Nat) (i : Nat) (h : i < l.length) :
    l[i]? = some (l.getD i 0) := by
  rw [List.getElem?_eq_getElem h, List.getD_eq_getElem?_getD,
    List.getElem?_eq_getElem h]
  rfl

/-- C3: a rejected output report — wrong report id, unknown request type, or
a `SetEffect` report with an unknown effect code — produces no command and no
response request and leaves the engine state (mailbox and response queue)
unchanged. -/
theorem rejected_report_no_state_change (st : EngineState) (report : List Nat)
    (hlen : report.length = 65)
    (hrej : report.getD 0 0 ≠ 0xEC ∨
      AuraOutputReportType.tryFrom (report.getD 1 0) = none ∨
      (report.getD 1 0 = 0x3B ∧
        AuraEffect.tryFrom (report.getD 4 0) = none)) :
    handle_report st report = some st := by
  have h0 := getElem?_eq_getD report 0 (by omega)
  have h1 := getElem?_eq_getD report 1 (by omega)
  have h2 := getElem?_eq_getD report 2 (by omega)
  have h4 := getElem?_eq_getD report 4 (by omega)
  set b0 := report.getD 0 0 with hb0
  set b1 := report.getD 1 0 with hb1
  set b2v := report.getD 2 0 with hb2
  set b4 := report.getD 4 0 with hb4
  unfold handle_report decode_report
  rw [h0, h1]
  rcases hrej with hne | hty | ⟨hty, heff⟩
  · simp [hne, AURA_HID_REPORT_ID]
  · by_cases hid : b0 = AURA_HID_REPORT_ID
    · simp [hid, hty]
    · simp [hid]
  · by_cases hid : b0 = AURA_HID_REPORT_ID
    · rw [hty]
      simp only [AuraOutputReportType.tryFrom]
      rw [h2, h4]
      simp [hid, heff]
    · simp [hid]

/-- Witness for `rejected_report_no_state_change`: a report with an unknown
request type byte (0x55) is dropped with no state change. -/
theorem rejected_report_no_state_change_witness :
    handle_report initial_state ([0xEC, 0x55] ++ List.replicate 63 0) =
      some initial_state :=
  rejected_report_no_state_change initial_state
    ([0xEC, 0x55] ++ List.replicate 63 0) (by decide)
    (Or.inr (Or.inl (by decide)))

theorem handle_report_command_shape (st st' : EngineState) (r : List Nat)
    (m : RogTerminalMessage) (h : handle_report st r = some st')
    (hc : decode_command r = some m) :
    st' = { st with next_message := some m } := by
  unfold handle_report at h
  unfold decode_command at hc
  cases hd : decode_report r with
  | none => rw [hd] at h; cases h
  | some res =>
    rw [hd] at h hc
    cases res with
    | rejected => simp at hc
    | response d => simp at hc
    | command m' =>
      simp only [Option.some.injEq] at hc
      have h' := Option.some.inj h
      rw [← h', hc]

/-- C4: the mailbox is a one-slot most-recent-wins latch: after two
command-producing reports with no intervening take, `poll_next_message`
returns only the second command and clears the mailbox, and a further take
returns `none`. -/
theorem mailbox_latest_command_wins (st st1 st2 : EngineState)
    (r1 r2 : List Nat) (m1 m2 : RogTerminalMessage)
    (h1 : handle_report st r1 = some st1) (hc1 : decode_command r1 = some m1)
    (h2 : handle_report st1 r2 = some st2) (hc2 : decode_command r2 = some m2) :
    poll_next_message st2 = (some m2, { st2 with next_message := none }) ∧
    (poll_next_message { st2 with next_message := none }).1 = none := by
  have e2 := handle_report_command_shape st1 st2 r2 m2 h2 hc2
  subst e2
  exact ⟨rfl, rfl⟩

/-- Witness for `mailbox_latest_command_wins`: a `SetEffect` report followed
by the spec's `SetDirectLeds` example report; only the LED update remains
retrievable. -/
theorem mailbox_latest_command_wins_witness :
    poll_next_message ⟨[], some (.UpdateLeds 1 0 true [⟨255, 0, 0⟩, ⟨0, 255, 0⟩])⟩ =
      (some (.UpdateLeds 1 0 true [⟨255, 0, 0⟩, ⟨0, 255, 0⟩]), ⟨[], none⟩) ∧
    (poll_next_message ⟨[], none⟩).1 = none :=
  mailbox_latest_command_wins ⟨[], none⟩ ⟨[], some (.SetEffect 2 .Rainbow)⟩
    ⟨[], some (.UpdateLeds 1 0 true [⟨255, 0, 0⟩, ⟨0, 255, 0⟩])⟩
    ([0xEC, 0x3B, 0x02, 0x00, 0x05] ++ List.replicate 60 0)
    spec_example_report
    (.SetEffect 2 .Rainbow)
    (.UpdateLeds 1 0 true [⟨255, 0, 0⟩, ⟨0, 255, 0⟩])
    (by decide) (by decide) (by decide) (by decide)

theorem handle_report_fw (st : EngineState) (r : List Nat)
    (h0 : r[0]? = some 0xEC) (h1 : r[1]? = some 0x82) :
    handle_report st r =
      some { st with data_rdy := ringPush st.data_rdy .FirmwareVersion } := by
  unfold handle_report decode_report
  rw [h0, h1]
  simp [AuraOutputReportType.tryFrom, AURA_HID_REPORT_ID]

theorem handle_report_ct (st : EngineState) (r : List Nat)
    (h0 : r[0]? = some 0xEC) (h1 : r[1]? = some 0xB0) :
    handle_report st r =
      some { st with data_rdy := ringPush st.data_rdy .ConfigTable } := by
  unfold handle_report decode_report
  rw [h0, h1]
  simp [AuraOutputReportType.tryFrom, AURA_HID_REPORT_ID]

/-- C5: the response queue is drained in strict FIFO arrival order: from an
empty queue, a firmware-version request followed by a config-table request is
answered by submitting the firmware-version report to the transport strictly
before the config-table report. -/
theorem response_queue_fifo_order (st st1 st2 : EngineState)
    (r1 r2 fwv : List Nat) (outcomes : Nat → Bool)
    (hq : st.data_rdy = [])
    (h10 : r1[0]? = some 0xEC) (h11 : r1[1]? = some 0x82)
    (h20 : r2[0]? = some 0xEC) (h21 : r2[1]? = some 0xB0)
    (hr1 : handle_report st r1 = some st1)
    (hr2 : handle_report st1 r2 = some st2)
    (o0 : outcomes 0 = true) (o1 : outcomes 1 = true) :
    push_ready_data fwv st2.data_rdy outcomes =
      ([], [encode_response fwv .FirmwareVersion,
            encode_response fwv .ConfigTable]) := by
  rw [handle_report_fw st r1 h10 h11] at hr1
  rw [handle_report_ct st1 r2 h20 h21] at hr2
  have e1 := Option.some.inj hr1
  have e2 := Option.some.inj hr2
  subst e1
  subst e2
  simp only [hq, ringPush, RINGBUFFER_CAPACITY]
  norm_num
  simp [push_ready_data, drain_from, o0, o1]

/-- Witness for `response_queue_fifo_order`: concrete firmware-version and
config-table request reports against an always-ready transport. -/
theorem response_queue_fifo_order_witness :
    push_ready_data [9, 9, 9, 9, 9, 9, 9, 9, 9, 9, 9, 9, 9, 9, 9]
        (EngineState.data_rdy ⟨[.FirmwareVersion, .ConfigTable], none⟩)
        (fun _ => true) =
      ([], [encode_response [9, 9, 9, 9, 9, 9, 9, 9, 9, 9, 9, 9, 9, 9, 9]
              .FirmwareVersion,
            encode_response [9, 9, 9, 9, 9, 9, 9, 9, 9, 9, 9, 9, 9, 9, 9]
              .ConfigTable]) :=
  response_queue_fifo_order ⟨[], none⟩ ⟨[.FirmwareVersion], none⟩
    ⟨[.FirmwareVersion, .ConfigTable], none⟩
    ([0xEC, 0x82] ++ List.replicate 63 0)
    ([0xEC, 0xB0] ++ List.replicate 63 0)
    [9, 9, 9, 9, 9, 9, 9, 9, 9, 9, 9, 9, 9, 9, 9]
    (fun _ => true) rfl (by decide) (by decide) (by decide) (by decide)
    (by decide) (by decide) rfl rfl

theorem drain_from_spec (fwv : List Nat) :
    ∀ (q : List RogTerminalReadyData) (outcomes : Nat → Bool) (k : Nat),
      (drain_from fwv q outcomes k).1 =
        q.drop (drain_from fwv q outcomes k).2.length ∧
      ((drain_from fwv q outcomes k).1 ≠ [] →
        outcomes (k + (drain_from fwv q outcomes k).2.length) = false)
  | [], outcomes, k => by simp [drain_from]
  | d :: rest, outcomes, k => by
    by_cases h : outcomes k = true
    · have ih := drain_from_spec fwv rest outcomes (k + 1)
      simp only [drain_from, h, if_true]
      refine ⟨?_, ?_⟩
      · simpa using ih.1
      · intro hne
        have h2 := ih.2 hne
        have e : k + 1 + (drain_from fwv rest outcomes (k + 1)).2.length =
            k + ((drain_from fwv rest outcomes (k + 1)).2.length + 1) := by
          omega
        simpa [e] using h2
    · have h' : outcomes k = false := by
        cases hc : outcomes k
        · rfl
        · exact absurd hc h
      simp [drain_from, h']

/-- C6: if the transport rejects the submission of the oldest pending
response, draining stops there and the rejected entry is not dequeued: the
remaining queue is exactly the undrained suffix, the failure happened on its
head, and a subsequent drain attempt (whose first submission succeeds)
submits that same entry first. -/
theorem drain_failure_preserves_queue (fwv : List Nat)
    (q q2 : List RogTerminalReadyData) (sent : List (List Nat))
    (outcomes outcomes2 : Nat → Bool)
    (h : push_ready_data fwv q outcomes = (q2, sent))
    (hne : q2 ≠ []) (h2 : outcomes2 0 = true) :
    q2 = q.drop sent.length ∧ outcomes sent.length = false ∧
    (push_ready_data fwv q2 outcomes2).2.head? =
      q2.head?.map (encode_response fwv) := by
  have hs := drain_from_spec fwv q outcomes 0
  unfold push_ready_data at h
  have hq2 : (drain_from fwv q outcomes 0).1 = q2 := by rw [h]
  have hsent : (drain_from fwv q outcomes 0).2 = sent := by rw [h]
  refine ⟨?_, ?_, ?_⟩
  · rw [← hq2, ← hsent]
    exact hs.1
  · have := hs.2 (by rw [hq2]; exact hne)
    rwa [hsent, Nat.zero_add] at this
  · cases q2 with
    | nil => exact absurd rfl hne
    | cons d rest =>
      simp [push_ready_data, drain_from, h2]

/-- Witness for `drain_failure_preserves_queue`: a two-element queue against
a transport that always fails, then a transport that succeeds. -/
theorem drain_failure_preserves_queue_witness :
    ([RogTerminalReadyData.FirmwareVersion, .ConfigTable] :
        List RogTerminalReadyData) =
      List.drop (List.length ([] : List (List Nat)))
        [RogTerminalReadyData.FirmwareVersion, .ConfigTable] ∧
    (fun _ => false : Nat → Bool) (List.length ([] : List (List Nat))) = false ∧
    (push_ready_data [] [RogTerminalReadyData.FirmwareVersion, .ConfigTable]
        (fun _ => true)).2.head? =
      (([RogTerminalReadyData.FirmwareVersion, .ConfigTable] :
          List RogTerminalReadyData).head?).map (encode_response []) :=
  drain_failure_preserves_queue [] [.FirmwareVersion, .ConfigTable]
    [.FirmwareVersion, .ConfigTable] [] (fun _ => false) (fun _ => true)
    rfl (by decide) rfl

/-- C7: encoding a firmware-version response always yields exactly 64 bytes:
byte 0 = 0xEC, byte 1 = 0x02, bytes 2..17 = the 15-byte firmware version
string, all remaining bytes zero; with the default firmware string
"AUTA0-S072-0101" the output is the fixed 64-byte report below.  The
encoder is a pure function of the firmware string, so for a fixed string the
output is byte-identical on every invocation. -/
theorem firmware_version_encoding (fwv : List Nat) (hlen : fwv.length = 15) :
    (encode_response fwv .FirmwareVersion).length = 64 ∧
    (encode_response fwv .FirmwareVersion)[0]? = some 0xEC ∧
    (encode_response fwv .FirmwareVersion)[1]? = some 0x02 ∧
    (∀ i < 15, (encode_response fwv .FirmwareVersion)[2 + i]? = fwv[i]?) ∧
    (∀ i, 17 ≤ i → i < 64 → (encode_response fwv .FirmwareVersion)[i]? = some 0) ∧
    encode_response ROG_AURA_DEFAULT_FIRMWARE_VERSION .FirmwareVersion =
      [0xEC, 0x02, 0x41, 0x55, 0x54, 0x41, 0x30, 0x2D, 0x53, 0x30, 0x37, 0x32,
       0x2D, 0x30, 0x31, 0x30, 0x31] ++ List.replicate 47 0 := by
  refine ⟨?_, by simp [encode_response, mk_firmware_report, AURA_HID_REPORT_ID],
    by simp [encode_response, mk_firmware_report, FIRMWARE_VERSION_REQUEST_OK],
    ?_, ?_, by decide⟩
  · simp [encode_response, mk_firmware_report, hlen]
  · intro i hi
    show (AURA_HID_REPORT_ID :: FIRMWARE_VERSION_REQUEST_OK ::
      (fwv ++ List.replicate 47 0))[2 + i]? = fwv[i]?
    have e : 2 + i = i + 1 + 1 := by omega
    rw [e, List.getElem?_cons_succ, List.getElem?_cons_succ,
      List.getElem?_append_left (by omega)]
  · intro i h17 h64
    show (AURA_HID_REPORT_ID :: FIRMWARE_VERSION_REQUEST_OK ::
      (fwv ++ List.replicate 47 0))[i]? = some 0
    obtain ⟨j, rfl⟩ : ∃ j, i = j + 1 + 1 := ⟨i - 2, by omega⟩
    rw [List.getElem?_cons_succ, List.getElem?_cons_succ,
      List.getElem?_append_right (by omega), hlen, List.getElem?_replicate,
      if_pos (by omega)]

/-- Witness for `firmware_version_encoding`: the default firmware version
string. -/
theorem firmware_version_encoding_witness :
    (encode_response ROG_AURA_DEFAULT_FIRMWARE_VERSION
        .FirmwareVersion).length = 64 ∧
    (encode_response ROG_AURA_DEFAULT_FIRMWARE_VERSION
        .FirmwareVersion)[0]? = some 0xEC ∧
    (encode_response ROG_AURA_DEFAULT_FIRMWARE_VERSION
        .FirmwareVersion)[1]? = some 0x02 ∧
    (∀ i < 15, (encode_response ROG_AURA_DEFAULT_FIRMWARE_VERSION
        .FirmwareVersion)[2 + i]? = ROG_AURA_DEFAULT_FIRMWARE_VERSION[i]?) ∧
    (∀ i, 17 ≤ i → i < 64 → (encode_response ROG_AURA_DEFAULT_FIRMWARE_VERSION
        .FirmwareVersion)[i]? = some 0) ∧
    encode_response ROG_AURA_DEFAULT_FIRMWARE_VERSION .FirmwareVersion =
      [0xEC, 0x02, 0x41, 0x55, 0x54, 0x41, 0x30, 0x2D, 0x53, 0x30, 0x37, 0x32,
       0x2D, 0x30, 0x31, 0x30, 0x31] ++ List.replicate 47 0 :=
  firmware_version_encoding ROG_AURA_DEFAULT_FIRMWARE_VERSION (by decide)

theorem tryFrom_setDirectLeds_inv (bv : Nat)
    (h : AuraOutputReportType.tryFrom bv = some .SetDirectLeds) : bv = 0x40 := by
  unfold AuraOutputReportType.tryFrom at h
  split at h <;> simp_all

theorem decode_report_total (report : List Nat) (hlen : report.length = 65) :
    (decode_report report).isSome := by
  have h0 := getElem?_eq_getD report 0 (by omega)
  have h1 := getElem?_eq_getD report 1 (by omega)
  have h2 := getElem?_eq_getD report 2 (by omega)
  have h3 := getElem?_eq_getD report 3 (by omega)
  have h4 := getElem?_eq_getD report 4 (by omega)
  set b0 := report.getD 0 0 with hb0
  set b1 := report.getD 1 0 with hb1
  set b2v := report.getD 2 0 with hb2
  set b3v := report.getD 3 0 with hb3
  set b4 := report.getD 4 0 with hb4
  by_cases hid : b0 = AURA_HID_REPORT_ID
  · cases htf : AuraOutputReportType.tryFrom b1 with
    | none =>
      unfold decode_report
      rw [h0, h1]
      simp [hid, htf]
    | some ty =>
      cases ty with
      | FirmwareVersionRequest =>
        unfold decode_report
        rw [h0, h1]
        simp [hid, htf]
      | ConfigTableRequest =>
        unfold decode_report
        rw [h0, h1]
        simp [hid, htf]
      | SetEffect =>
        cases heff : AuraEffect.tryFrom b4 with
        | none =>
          unfold decode_report
          rw [h0, h1, h2, h4]
          simp [hid, htf, heff]
        | some e =>
          unfold decode_report
          rw [h0, h1, h2, h4]
          simp [hid, htf, heff]
      | SetDirectLeds =>
        have hb40 : b1 = 0x40 := tryFrom_setDirectLeds_inv b1 htf
        rw [hb40] at h1
        rw [hid] at h0
        have hd := decode_report_setDirectLeds report b2v b3v b4 hlen h0 h1 h2 h3 h4
        rw [hd]
        rfl
  · unfold decode_report
    rw [h0, h1]
    simp [hid]

/-- C8: `handle_report` of the later engine is total on 65-byte output
reports: no panic is reachable.  Moreover 5 + 20·3 = 65 (the exact-fit
invariant of the report format), and for every clamped LED count n ≤ 20 the
byte slice 5 .. 5+3n lies within the report and has length exactly 3n. -/
theorem handle_report_total (st : EngineState) (report : List Nat)
    (hlen : report.length = 65) :
    (handle_report st report).isSome ∧
    5 + AURA_MAX_DIRECT_LED_COUNT * 3 = AURA_OUTPUT_REPORT_SIZE ∧
    ∀ n, n ≤ AURA_MAX_DIRECT_LED_COUNT →
      sliceRange report 5 (5 + n * 3) =
        some ((report.drop 5).take (n * 3)) ∧
      ((report.drop 5).take (n * 3)).length = 3 * n := by
  refine ⟨?_, by decide, ?_⟩
  · have ht := decode_report_total report hlen
    unfold handle_report
    cases hd : decode_report report with
    | none => rw [hd] at ht; simp at ht
    | some r => cases r <;> simp
  · intro n hn
    have hn' : n ≤ 20 := by simpa [AURA_MAX_DIRECT_LED_COUNT] using hn
    constructor
    · have hA : (5 : Nat) ≤ 5 + n * 3 := by omega
      have hB : 5 + n * 3 ≤ report.length := by omega
      simp [sliceRange, hA, hB]
    · simp only [List.length_take, List.length_drop, hlen]
      omega

/-- Witness for `handle_report_total`: an all-0xFF report (which requests an
oversized LED count and an unknown effect code pattern) is handled without
panic. -/
theorem handle_report_total_witness :
    (handle_report initial_state (List.replicate 65 0xFF)).isSome ∧
    5 + AURA_MAX_DIRECT_LED_COUNT * 3 = AURA_OUTPUT_REPORT_SIZE ∧
    ∀ n, n ≤ AURA_MAX_DIRECT_LED_COUNT →
      sliceRange (List.replicate 65 0xFF) 5 (5 + n * 3) =
        some (((List.replicate 65 0xFF).drop 5).take (n * 3)) ∧
      (((List.replicate 65 0xFF).drop 5).take (n * 3)).length = 3 * n :=
  handle_report_total initial_state (List.replicate 65 0xFF) (by decide)

theorem reachable_data_rdy_le (st : EngineState) (h : Reachable st) :
    st.data_rdy.length ≤ 4 := by
  induction h with
  | init => simp [initial_state]
  | handle st st' report _ hstep ih =>
    unfold handle_report at hstep
    cases hd : decode_report report with
    | none => rw [hd] at hstep; cases hstep
    | some r =>
      rw [hd] at hstep
      cases r with
      | rejected =>
        have e := Option.some.inj hstep
        rw [← e]
        exact ih
      | response d =>
        have e := Option.some.inj hstep
        rw [← e]
        simp only [ringPush, RINGBUFFER_CAPACITY]
        split
        · simp only [List.length_append, List.length_singleton]
          omega
        · simp only [List.length_append, List.length_singleton,
            List.length_tail]
          omega
      | command m =>
        have e := Option.some.inj hstep
        rw [← e]
        exact ih
  | take st _ ih => exact ih
  | drain st fwv outcomes _ ih =>
    have hs := (drain_from_spec fwv st.data_rdy outcomes 0).1
    simp only [push_ready_data]
    rw [hs]
    simp only [List.length_drop]
    omega

/-- C9: in every reachable engine state the response queue holds at most 4
entries; an enqueue onto a full queue of 4 does not block and evicts the
oldest entry, retaining the new one, so the queue afterwards holds the 4
most recent entries in arrival order. -/
theorem response_queue_bounded_evict_oldest (st : EngineState)
    (q : List RogTerminalReadyData) (x : RogTerminalReadyData)
    (hr : Reachable st) (hq : q.length = 4) :
    st.data_rdy.length ≤ 4 ∧
    ringPush q x = q.tail ++ [x] ∧ (ringPush q x).length = 4 := by
  refine ⟨reachable_data_rdy_le st hr, ?_, ?_⟩
  · simp [ringPush, RINGBUFFER_CAPACITY, hq]
  · simp only [ringPush, RINGBUFFER_CAPACITY, hq]
    norm_num
    simp [List.length_tail, hq]

/-- Witness for `response_queue_bounded_evict_oldest`: the initial state and
a full queue of four firmware-version entries receiving a config-table
entry. -/
theorem response_queue_bounded_evict_oldest_witness :
    (initial_state.data_rdy.length ≤ 4) ∧
    ringPush [.FirmwareVersion, .FirmwareVersion, .FirmwareVersion,
        .FirmwareVersion] .ConfigTable =
      ([RogTerminalReadyData.FirmwareVersion, .FirmwareVersion,
        .FirmwareVersion] ++ [.ConfigTable]) ∧
    (ringPush [.FirmwareVersion, .FirmwareVersion, .FirmwareVersion,
        .FirmwareVersion] .ConfigTable).length = 4 :=
  response_queue_bounded_evict_oldest initial_state
    [.FirmwareVersion, .FirmwareVersion, .FirmwareVersion, .FirmwareVersion]
    .ConfigTable Reachable.init (by decide)

/-- C10 (refuted by the code): on the spec's own end-to-end `SetDirectLeds`
example (N = 2 ≤ 20), the later engine decodes `UpdateLeds` with channel 1,
offset 0, apply = true and the two colors, but the earlier engine
(`src/lib.rs`) panics: it slices `buf[5..5 + num_leds]` instead of
`buf[5..5 + num_leds * 3]`, so `rgb_from_raw_slice` yields `num_leds / 3`
colors while `copy_from_slice` expects `num_leds`, a guaranteed length
mismatch for every nonzero count.  The two engines therefore do not decode
equivalent messages. -/
theorem earlier_engine_panics_on_direct_leds :
    spec_example_report.length = 65 ∧
    spec_example_report.getD 0 0 = 0xEC ∧
    spec_example_report.getD 1 0 = 0x40 ∧
    spec_example_report.getD 4 0 = 2 ∧
    decode_report spec_example_report =
      some (.command (.UpdateLeds 1 0 true [⟨255, 0, 0⟩, ⟨0, 255, 0⟩])) ∧
    decode_report_v1 spec_example_report = none := by
  decide

end RogTerminal
